import Mathlib

/-!
Shallow embedding of the search-result acquisition protocol of
`src/api.py` (`search_torrents_api` and its constants), together with the
login boundary behaviour it relies on (`login_to_qbittorrent`).

The remote service's behaviour is modelled by an environment `Env` giving,
for each HTTP call the function makes, either a transport-level exception
or a response.  The function itself is a total Lean function from that
environment to its observable outcome (a returned envelope, or an
uncaught exception) paired with the trace of external events it performs
(HTTP requests and inter-attempt sleeps).
-/

namespace QbtSearch

/-- `SEARCH_MAX_RETRIES` from `src/api.py` line 9. -/
def SEARCH_MAX_RETRIES : Nat := 10

/-- One row of a search result page.  The code inspects only the
`fileSize` and `nbSeeders` JSON fields, each of which may be absent
(`dict.get` with default `0`); `tag` stands for the remaining opaque
pass-through payload and serves only to distinguish records. -/
structure Torrent where
  fileSize : Option Nat
  nbSeeders : Option Nat
  tag : Nat := 0
deriving DecidableEq, Repr

/-- Outcome of the login call (`login_to_qbittorrent`, lines 12-32):
the HTTP POST may raise a transport exception; otherwise the function
returns a cookie jar on HTTP 200 and `None` on any other status.  A 200
response with an empty jar is falsy at the call site (`if not cookies:`)
and is folded into `noSession`. -/
inductive LoginResult where
  | raise
  | noSession
  | session
deriving DecidableEq, Repr

/-- Outcome of the `search/start` call (lines 702-717): a transport or
JSON-decoding exception (caught by the surrounding `try`), or a response
with a status code, a body text, and the optional `id` field of the
decoded body. -/
inductive StartResult where
  | raise
  | resp (statusCode : Nat) (text : String) (searchId : Option String)
deriving DecidableEq, Repr

/-- Outcome of one `search/results` poll call (lines 736-751): a
transport or JSON-decoding exception (caught by the surrounding `try`),
or a response with a status code, a body text, the optional `status`
field and the `results` list (default `[]`). -/
inductive PollResult where
  | raise
  | resp (statusCode : Nat) (text : String) (status : Option String)
      (results : List Torrent)
deriving DecidableEq, Repr

/-- The remote service's behaviour during one invocation:  the login
response, the search-start response, and the response to each poll
attempt (indexed by the zero-based attempt number). -/
structure Env where
  login : LoginResult
  start : StartResult
  poll : Nat → PollResult

/-- External events of one invocation, in order: HTTP requests issued
and inter-attempt sleeps (`asyncio.sleep` at line 763). -/
inductive Ev where
  | loginReq
  | startReq
  | pollReq
  | sleep
deriving DecidableEq, Repr

/-- How the polling loop (lines 729-763) is left. -/
inductive LoopExit where
  | errRaise
  | errPoll (code : Nat) (text : String)
  | finished (torrents : List Torrent) (status : Option String)
deriving DecidableEq, Repr

/-- The polling loop of `search_torrents_api` (lines 729-763), written
with explicit fuel: `pollLoop poll fuel attempt torrents status` runs the
body for attempt indices `attempt, attempt+1, ...` while fuel lasts,
mirroring `for attempt in range(SEARCH_MAX_RETRIES)` when started with
`fuel = SEARCH_MAX_RETRIES` and `attempt = 0`.  `torrents`/`status` are
the last-seen page and status (initially `[]` / `None`, line 726-727).
Returns the loop exit and the trace of poll requests and sleeps. -/
def pollLoop (poll : Nat → PollResult) :
    Nat → Nat → List Torrent → Option String → LoopExit × List Ev
  | 0, _, torrents, status => (.finished torrents status, [])
  | fuel + 1, attempt, _, _ =>
    match poll attempt with
    | .raise => (.errRaise, [.pollReq])
    | .resp code text st res =>
      if code ≠ 200 then
        (.errPoll code text, [.pollReq])
      else if st = some "Stopped" then
        (.finished res st, [.pollReq])
      else if res ≠ [] ∧ 2 ≤ attempt then
        (.finished res st, [.pollReq])
      else if attempt < SEARCH_MAX_RETRIES - 1 then
        let r := pollLoop poll fuel (attempt + 1) res st
        (r.1, .pollReq :: .sleep :: r.2)
      else
        let r := pollLoop poll fuel (attempt + 1) res st
        (r.1, .pollReq :: r.2)

/-- The seeder-count sort key: `x.get('nbSeeders', 0)` (line 783). -/
def seedKey (t : Torrent) : Nat := t.nbSeeders.getD 0

/-- The size-filter predicate: `torrent.get('fileSize', 0) <= max_size_bytes`
(line 777). -/
def sizeOK (maxSizeBytes : Nat) (t : Torrent) : Bool :=
  t.fileSize.getD 0 ≤ maxSizeBytes

/-- Insertion step of a stable descending sort by `seedKey`: the new
element is placed before the first element whose key is not strictly
greater, so equal-key elements keep their input order. -/
def insertDesc (x : Torrent) : List Torrent → List Torrent
  | [] => [x]
  | y :: ys => if seedKey x < seedKey y then y :: insertDesc x ys else x :: y :: ys

/-- Stable descending sort by `seedKey`, modelling
`sorted(filtered_torrents, key=lambda x: x.get('nbSeeders', 0), reverse=True)`
(lines 781-785): Python's `sorted` is stable, and `reverse=True` keeps
equal-key elements in input order. -/
def sortByNbSeedersDesc : List Torrent → List Torrent
  | [] => []
  | x :: xs => insertDesc x (sortByNbSeedersDesc xs)

/-- The final envelope returned on success (lines 790-796). -/
structure Envelope where
  search_id : String
  pattern : String
  total_results : Nat
  filtered_results : Nat
  results : List Torrent
deriving DecidableEq, Repr

/-- The result-shaping stage, Steps 3-5 of `search_torrents_api`
(lines 773-796): size filter, stable descending sort by seeders,
truncation to the top 10, envelope assembly. -/
def shape (search_id pattern : String) (torrents : List Torrent)
    (maxSizeBytes : Nat) : Envelope :=
  let filtered_torrents := torrents.filter (sizeOK maxSizeBytes)
  let sorted_torrents := sortByNbSeedersDesc filtered_torrents
  let top_10 := sorted_torrents.take 10
  { search_id := search_id
    pattern := pattern
    total_results := torrents.length
    filtered_results := filtered_torrents.length
    results := top_10 }

/-- The distinct observable return values of `search_torrents_api`,
one constructor per `return` site, carrying the data each JSON envelope
carries.  `caughtError` is the generic `except Exception` envelope
(lines 798-801). -/
inductive SearchOutput where
  | loginFailed
  | startFailed (code : Nat) (text : String)
  | noSearchId
  | pollFailed (code : Nat) (text : String)
  | timeout (searchId : String) (status : Option String)
  | caughtError
  | success (e : Envelope)
deriving DecidableEq, Repr

/-- The `error` message string of each error envelope, as in the source
(`None` for the success envelope).  The status-code renderings append the
decimal code to the fixed message prefix. -/
def errorMessage : SearchOutput → Option String
  | .loginFailed => some "登录失败，无法获取SID"
  | .startFailed code _ => some ("启动搜索失败: 状态码 " ++ toString code)
  | .noSearchId => some "未能获取搜索ID"
  | .pollFailed code _ => some ("获取搜索结果失败: 状态码 " ++ toString code)
  | .timeout _ _ => some "搜索超时，未能获取到结果"
  | .caughtError => some "错误"
  | .success _ => none

/-- `if not search_id:` (line 719): the id is falsy when absent or the
empty string. -/
def searchIdMissing : Option String → Bool
  | none => true
  | some s => s.isEmpty

/-- `search_torrents_api` (lines 655-801) as a function of the remote
behaviour `env`: returns `.error ()` when an exception escapes the
function (only possible from the login call, which sits before the `try`
at line 687), else `.ok` with the returned envelope; paired with the
trace of HTTP requests and sleeps performed. -/
def search_torrents_api (pattern : String) (maxSizeBytes : Nat)
    (env : Env) : Except Unit SearchOutput × List Ev :=
  match env.login with
  | .raise => (.error (), [.loginReq])
  | .noSession => (.ok .loginFailed, [.loginReq])
  | .session =>
    match env.start with
    | .raise => (.ok .caughtError, [.loginReq, .startReq])
    | .resp code text sid =>
      if code ≠ 200 then
        (.ok (.startFailed code text), [.loginReq, .startReq])
      else if searchIdMissing sid then
        (.ok .noSearchId, [.loginReq, .startReq])
      else
        let search_id := sid.getD ""
        let r := pollLoop env.poll SEARCH_MAX_RETRIES 0 [] none
        let trace := .loginReq :: .startReq :: r.2
        match r.1 with
        | .errRaise => (.ok .caughtError, trace)
        | .errPoll c t => (.ok (.pollFailed c t), trace)
        | .finished torrents status =>
          if torrents = [] ∧ status ≠ some "Stopped" then
            (.ok (.timeout search_id status), trace)
          else
            (.ok (.success (shape search_id pattern torrents maxSizeBytes)), trace)

/-! ### Properties of the stable descending sort -/

/-- The ranking order: `a` ranks at least as high as `b`. -/
abbrev seedGE (a b : Torrent) : Prop := seedKey b ≤ seedKey a

lemma mem_insertDesc {z x : Torrent} {l : List Torrent} :
    z ∈ insertDesc x l ↔ z = x ∨ z ∈ l := by
  induction l with
  | nil => simp [insertDesc]
  | cons y ys ih =>
    simp only [insertDesc]
    split
    · simp only [List.mem_cons, ih]
      tauto
    · simp [List.mem_cons]

lemma pairwise_insertDesc {x : Torrent} {l : List Torrent}
    (hl : l.Pairwise seedGE) : (insertDesc x l).Pairwise seedGE := by
  induction l with
  | nil => simp [insertDesc]
  | cons y ys ih =>
    rw [List.pairwise_cons] at hl
    obtain ⟨hy, hys⟩ := hl
    simp only [insertDesc]
    split
    · rename_i hlt
      rw [List.pairwise_cons]
      refine ⟨?_, ih hys⟩
      intro z hz
      rcases mem_insertDesc.mp hz with rfl | hz
      · exact Nat.le_of_lt hlt
      · exact hy z hz
    · rename_i hge
      rw [List.pairwise_cons]
      refine ⟨?_, List.pairwise_cons.mpr ⟨hy, hys⟩⟩
      intro z hz
      rcases List.mem_cons.mp hz with rfl | hz
      · exact Nat.le_of_not_lt hge
      · exact Nat.le_trans (hy z hz) (Nat.le_of_not_lt hge)

lemma pairwise_sortByNbSeedersDesc (l : List Torrent) :
    (sortByNbSeedersDesc l).Pairwise seedGE := by
  induction l with
  | nil => simp [sortByNbSeedersDesc]
  | cons x xs ih => exact pairwise_insertDesc ih

lemma length_insertDesc (x : Torrent) (l : List Torrent) :
    (insertDesc x l).length = l.length + 1 := by
  induction l with
  | nil => simp [insertDesc]
  | cons y ys ih =>
    simp only [insertDesc]
    split <;> simp [ih]

lemma length_sortByNbSeedersDesc (l : List Torrent) :
    (sortByNbSeedersDesc l).length = l.length := by
  induction l with
  | nil => rfl
  | cons x xs ih => simp [sortByNbSeedersDesc, length_insertDesc, ih]

lemma filter_insertDesc (x : Torrent) (l : List Torrent) (k : Nat) :
    (insertDesc x l).filter (fun t => seedKey t == k) =
      if seedKey x = k then x :: l.filter (fun t => seedKey t == k)
      else l.filter (fun t => seedKey t == k) := by
  induction l with
  | nil =>
    by_cases h : seedKey x = k <;> simp [insertDesc, h]
  | cons y ys ih =>
    simp only [insertDesc]
    by_cases hxy : seedKey x < seedKey y
    · rw [if_pos hxy]
      by_cases hy : seedKey y = k
      · have hx : ¬ seedKey x = k := by omega
        simp [List.filter_cons, hy, hx, ih]
      · simp [List.filter_cons, hy, ih]
    · rw [if_neg hxy]
      by_cases hx : seedKey x = k <;> simp [List.filter_cons, hx]

/-- Stability of the sort: elements with any given key appear in the
sorted list exactly in their input order. -/
lemma filter_sortByNbSeedersDesc (l : List Torrent) (k : Nat) :
    (sortByNbSeedersDesc l).filter (fun t => seedKey t == k) =
      l.filter (fun t => seedKey t == k) := by
  induction l with
  | nil => rfl
  | cons x xs ih =>
    simp only [sortByNbSeedersDesc, filter_insertDesc, ih]
    by_cases hx : seedKey x = k <;> simp [List.filter_cons, hx]

/-! ### Properties of the shaping stage -/

lemma shape_results_eq (sid pat : String) (R : List Torrent) (S : Nat) :
    (shape sid pat R S).results =
      (sortByNbSeedersDesc (R.filter (sizeOK S))).take 10 := rfl

lemma shape_pairwise (sid pat : String) (R : List Torrent) (S : Nat) :
    ((shape sid pat R S).results).Pairwise seedGE := by
  rw [shape_results_eq]
  exact (pairwise_sortByNbSeedersDesc _).sublist (List.take_sublist 10 _)

lemma shape_filtered_le (sid pat : String) (R : List Torrent) (S : Nat) :
    (shape sid pat R S).filtered_results ≤ (shape sid pat R S).total_results := by
  simp only [shape]
  exact List.length_filter_le _ _

lemma shape_results_length (sid pat : String) (R : List Torrent) (S : Nat) :
    (shape sid pat R S).results.length ≤
      min (shape sid pat R S).filtered_results 10 := by
  simp only [shape, List.length_take, length_sortByNbSeedersDesc]
  omega

/-! ### Properties of the polling loop -/

/-- Attempt `i` neither breaks nor aborts the polling loop: HTTP 200,
a status other than Stopped, and no early acceptance (empty page, or
attempt index below 2). -/
def nonExiting (poll : Nat → PollResult) (i : Nat) : Prop :=
  ∃ text st res, poll i = .resp 200 text st res ∧ st ≠ some "Stopped" ∧
    (res = [] ∨ i < 2)

/-- Trace of `n` non-final poll attempts: each issues one request and
then sleeps once. -/
def preTrace : Nat → List Ev
  | 0 => []
  | n + 1 => .pollReq :: .sleep :: preTrace n

/-- If attempts `attempt, ..., j-1` are all non-exiting, the loop from
`attempt` reaches attempt `j`, contributing one request and one sleep per
skipped attempt. -/
lemma pollLoop_reach (poll : Nat → PollResult) (j : Nat)
    (hj : j < SEARCH_MAX_RETRIES)
    (hne : ∀ i, i < j → nonExiting poll i) :
    ∀ fuel attempt t s, fuel + attempt = SEARCH_MAX_RETRIES → attempt ≤ j →
      ∃ t' s',
        pollLoop poll fuel attempt t s =
          ((pollLoop poll (fuel - (j - attempt)) j t' s').1,
            preTrace (j - attempt) ++
              (pollLoop poll (fuel - (j - attempt)) j t' s').2) := by
  have h10 : SEARCH_MAX_RETRIES = 10 := rfl
  intro fuel
  induction fuel with
  | zero =>
    intro attempt t s hfa ha
    omega
  | succ m ih =>
    intro attempt t s hfa ha
    by_cases haj : attempt = j
    · subst haj
      refine ⟨t, s, ?_⟩
      simp [Nat.sub_self, preTrace]
    · have haj' : attempt < j := by omega
      obtain ⟨text, st, res, hp, hst, hres⟩ := hne attempt haj'
      have h200 : ¬((200 : Nat) ≠ 200) := by omega
      have hacc : ¬(res ≠ [] ∧ 2 ≤ attempt) := by
        rcases hres with h | h
        · simp [h]
        · omega
      have hsleep : attempt < SEARCH_MAX_RETRIES - 1 := by omega
      obtain ⟨t', s', heq⟩ := ih (attempt + 1) res st (by omega) (by omega)
      refine ⟨t', s', ?_⟩
      simp only [pollLoop, hp]
      rw [if_neg h200, if_neg hst, if_neg hacc, if_pos hsleep, heq]
      have harg : m - (j - (attempt + 1)) = m + 1 - (j - attempt) := by omega
      have hjsum : j - attempt = (j - (attempt + 1)) + 1 := by omega
      rw [harg, hjsum, preTrace]
      simp

/-- Every full run of the polling loop (with the source's fuel/attempt
relation) performs `k+1 ≤ fuel` poll requests with a sleep strictly
between consecutive requests and none after the last. -/
lemma pollLoop_trace_shape (poll : Nat → PollResult) :
    ∀ fuel attempt t s, fuel + attempt = SEARCH_MAX_RETRIES → 1 ≤ fuel →
      ∃ k, k + 1 ≤ fuel ∧
        (pollLoop poll fuel attempt t s).2 = preTrace k ++ [Ev.pollReq] := by
  have h10 : SEARCH_MAX_RETRIES = 10 := rfl
  intro fuel
  induction fuel with
  | zero =>
    intro attempt t s hfa h1
    omega
  | succ m ih =>
    intro attempt t s hfa _
    cases hp : poll attempt with
    | raise =>
      refine ⟨0, by omega, ?_⟩
      simp [pollLoop, hp, preTrace]
    | resp code text st res =>
      by_cases hc : code ≠ 200
      · refine ⟨0, by omega, ?_⟩
        simp only [pollLoop, hp]
        rw [if_pos hc]
        rfl
      · by_cases hst : st = some "Stopped"
        · refine ⟨0, by omega, ?_⟩
          simp only [pollLoop, hp]
          rw [if_neg hc, if_pos hst]
          rfl
        · by_cases hacc : res ≠ [] ∧ 2 ≤ attempt
          · refine ⟨0, by omega, ?_⟩
            simp only [pollLoop, hp]
            rw [if_neg hc, if_neg hst, if_pos hacc]
            rfl
          · by_cases hsl : attempt < SEARCH_MAX_RETRIES - 1
            · have hm : 1 ≤ m := by omega
              obtain ⟨k, hk, htr⟩ := ih (attempt + 1) res st (by omega) hm
              refine ⟨k + 1, by omega, ?_⟩
              simp only [pollLoop, hp]
              rw [if_neg hc, if_neg hst, if_neg hacc, if_pos hsl]
              simp [htr, preTrace]
            · have hm : m = 0 := by omega
              subst hm
              refine ⟨0, by omega, ?_⟩
              simp only [pollLoop, hp]
              rw [if_neg hc, if_neg hst, if_neg hacc, if_neg hsl]
              rfl

lemma count_pollReq_preTrace (n : Nat) :
    (preTrace n).count Ev.pollReq = n := by
  induction n with
  | zero => rfl
  | succ m ih => simp [preTrace, List.count_cons, ih]

lemma count_loginReq_preTrace (n : Nat) :
    (preTrace n).count Ev.loginReq = 0 := by
  induction n with
  | zero => rfl
  | succ m ih => simp [preTrace, List.count_cons, ih]

lemma count_startReq_preTrace (n : Nat) :
    (preTrace n).count Ev.startReq = 0 := by
  induction n with
  | zero => rfl
  | succ m ih => simp [preTrace, List.count_cons, ih]

/-- An event that is an HTTP request (anything but a sleep). -/
def isReq : Ev → Bool
  | .sleep => false
  | _ => true

lemma length_filter_isReq_preTrace (n : Nat) :
    ((preTrace n).filter isReq).length = n := by
  induction n with
  | zero => rfl
  | succ m ih => simp [preTrace, List.filter_cons, isReq, ih]

/-- An adjacent pair is acceptable when any sleep in it sits next to a
poll request on the respective side. -/
def evOK (a b : Ev) : Bool :=
  (a != Ev.sleep || b == Ev.pollReq) && (b != Ev.sleep || a == Ev.pollReq)

/-- Pair scan: every sleep is immediately preceded and followed by a
poll request, and the last event is not a sleep. -/
def sleepOKPairs : List Ev → Bool
  | a :: b :: rest => evOK a b && sleepOKPairs (b :: rest)
  | [a] => a != Ev.sleep
  | [] => true

/-- Sleeps occur only strictly between two poll requests: no sleep at
the head or end of the trace, and every sleep has a poll request
immediately on each side. -/
def sleepWellPlaced (l : List Ev) : Bool :=
  match l with
  | Ev.sleep :: _ => false
  | _ => sleepOKPairs l

lemma sleepOKPairs_preTrace (k : Nat) :
    sleepOKPairs (preTrace k ++ [Ev.pollReq]) = true ∧
    ∃ rest, preTrace k ++ [Ev.pollReq] = Ev.pollReq :: rest := by
  induction k with
  | zero => exact ⟨rfl, [], rfl⟩
  | succ m ih =>
    obtain ⟨hok, rest, hrest⟩ := ih
    constructor
    · simp only [preTrace, List.cons_append]
      rw [hrest]
      simp only [sleepOKPairs]
      rw [← hrest, hok]
      rfl
    · exact ⟨Ev.sleep :: (preTrace m ++ [Ev.pollReq]), rfl⟩

lemma sleepWellPlaced_fullTrace (k : Nat) :
    sleepWellPlaced
      (Ev.loginReq :: Ev.startReq :: (preTrace k ++ [Ev.pollReq])) = true := by
  obtain ⟨hok, rest, hrest⟩ := sleepOKPairs_preTrace k
  show sleepOKPairs
    (Ev.loginReq :: Ev.startReq :: (preTrace k ++ [Ev.pollReq])) = true
  rw [hrest]
  simp only [sleepOKPairs]
  rw [← hrest, hok]
  rfl

/-! ### Single-step lemmas for the polling loop -/

lemma pollLoop_step_fail {poll : Nat → PollResult} {attempt code : Nat}
    {text : String} {st : Option String} {res : List Torrent}
    (fuel : Nat) (t : List Torrent) (s : Option String)
    (hp : poll attempt = .resp code text st res) (hc : code ≠ 200) :
    pollLoop poll (fuel + 1) attempt t s = (.errPoll code text, [Ev.pollReq]) := by
  simp only [pollLoop, hp]
  rw [if_pos hc]

lemma pollLoop_step_stop {poll : Nat → PollResult} {attempt : Nat}
    {text : String} {res : List Torrent}
    (fuel : Nat) (t : List Torrent) (s : Option String)
    (hp : poll attempt = .resp 200 text (some "Stopped") res) :
    pollLoop poll (fuel + 1) attempt t s =
      (.finished res (some "Stopped"), [Ev.pollReq]) := by
  simp only [pollLoop, hp]
  rw [if_neg (by omega : ¬((200 : Nat) ≠ 200)), if_pos trivial]

lemma pollLoop_step_accept {poll : Nat → PollResult} {attempt : Nat}
    {text : String} {st : Option String} {res : List Torrent}
    (fuel : Nat) (t : List Torrent) (s : Option String)
    (hp : poll attempt = .resp 200 text st res) (hst : st ≠ some "Stopped")
    (hacc : res ≠ [] ∧ 2 ≤ attempt) :
    pollLoop poll (fuel + 1) attempt t s = (.finished res st, [Ev.pollReq]) := by
  simp only [pollLoop, hp]
  rw [if_neg (by omega : ¬((200 : Nat) ≠ 200)), if_neg hst, if_pos hacc]

/-- The final attempt (index 9): if it does not break, the loop runs out
of fuel immediately after, with no trailing sleep, keeping the attempt's
page and status as the last-seen values. -/
lemma pollLoop_step_exhaust {poll : Nat → PollResult}
    {text : String} {st : Option String} {res : List Torrent}
    (t : List Torrent) (s : Option String)
    (hp : poll 9 = .resp 200 text st res) (hst : st ≠ some "Stopped")
    (hacc : ¬(res ≠ [] ∧ 2 ≤ 9)) :
    pollLoop poll 1 9 t s = (.finished res st, [Ev.pollReq]) := by
  simp only [pollLoop, hp]
  rw [if_neg (by omega : ¬((200 : Nat) ≠ 200)), if_neg hst, if_neg hacc,
    if_neg (by simp [SEARCH_MAX_RETRIES] : ¬(9 < SEARCH_MAX_RETRIES - 1))]

/-! ### Search-level helper lemmas -/

lemma searchIdMissing_some {s : String} (h : s ≠ "") :
    searchIdMissing (some s) = false := by
  simp only [searchIdMissing]
  cases he : s.isEmpty
  · rfl
  · exact absurd ((String.isEmpty_iff _).mp he) h

/-- After a successful login and a successful search start returning a
non-empty id, the operation is decided by the polling loop alone. -/
lemma search_poll_phase (pat : String) (S : Nat) (env : Env)
    (sid stxt : String)
    (hlogin : env.login = .session)
    (hstart : env.start = .resp 200 stxt (some sid)) (hsid : sid ≠ "") :
    search_torrents_api pat S env =
      (match (pollLoop env.poll SEARCH_MAX_RETRIES 0 [] none).1 with
        | .errRaise => (.ok .caughtError,
            Ev.loginReq :: Ev.startReq ::
              (pollLoop env.poll SEARCH_MAX_RETRIES 0 [] none).2)
        | .errPoll c t => (.ok (.pollFailed c t),
            Ev.loginReq :: Ev.startReq ::
              (pollLoop env.poll SEARCH_MAX_RETRIES 0 [] none).2)
        | .finished torrents status =>
          if torrents = [] ∧ status ≠ some "Stopped" then
            (.ok (.timeout sid status),
              Ev.loginReq :: Ev.startReq ::
                (pollLoop env.poll SEARCH_MAX_RETRIES 0 [] none).2)
          else
            (.ok (.success (shape sid pat torrents S)),
              Ev.loginReq :: Ev.startReq ::
                (pollLoop env.poll SEARCH_MAX_RETRIES 0 [] none).2)) := by
  simp only [search_torrents_api, hlogin, hstart]
  rw [if_neg (by omega : ¬((200 : Nat) ≠ 200))]
  rw [searchIdMissing_some hsid]
  simp only [Bool.false_eq_true, if_false, Option.getD_some]

/-- The timeout message differs from every poll-failure message (their
first characters differ). -/
lemma timeout_msg_ne (sid : String) (st : Option String) (c : Nat) (t : String) :
    errorMessage (.timeout sid st) ≠ errorMessage (.pollFailed c t) := by
  simp only [errorMessage, ne_eq, Option.some.injEq]
  intro h
  have h2 : ("搜索超时，未能获取到结果" : String).data.head? =
      ("获取搜索结果失败: 状态码 " ++ toString c).data.head? := by rw [h]
  have hr : ("获取搜索结果失败: 状态码 " ++ toString c).data.head? = some '获' := rfl
  rw [hr] at h2
  exact absurd (Option.some.inj h2) (by decide)

lemma count_pollReq_fullTrace (k : Nat) :
    (Ev.loginReq :: Ev.startReq :: (preTrace k ++ [Ev.pollReq])).count
      Ev.pollReq = k + 1 := by
  simp [List.count_cons, List.count_append, count_pollReq_preTrace]

/-! ### Claim theorems -/

/-- C3: for every result list R and size ceiling S, the shaping stage
reports filtered_results equal to the number of entries of R whose
fileSize is at most S (a missing fileSize is treated as 0), and an entry
with no fileSize field always passes the filter. -/
theorem C3_filter_correctness (sid pat : String) (R : List Torrent) (S : Nat) :
    (shape sid pat R S).filtered_results =
      R.countP (fun t => t.fileSize.getD 0 ≤ S) ∧
    ∀ t ∈ R, t.fileSize = none → sizeOK S t = true := by
  constructor
  · simp only [shape, List.countP_eq_length_filter]
    rfl
  · intro t _ ht
    simp [sizeOK, ht]

/-- Witness for C3 at a concrete input: one entry with no fileSize and
one oversized entry, ceiling 5. -/
theorem C3_filter_correctness_witness :
    (shape "s" "p" [⟨none, some 1, 0⟩, ⟨some 9, some 2, 1⟩] 5).filtered_results =
      ([⟨none, some 1, 0⟩, ⟨some 9, some 2, 1⟩] : List Torrent).countP
        (fun t => t.fileSize.getD 0 ≤ 5) ∧
    ∀ t ∈ ([⟨none, some 1, 0⟩, ⟨some 9, some 2, 1⟩] : List Torrent),
      t.fileSize = none → sizeOK 5 t = true :=
  C3_filter_correctness "s" "p" [⟨none, some 1, 0⟩, ⟨some 9, some 2, 1⟩] 5

/-- C4: the results array of the envelope is sorted non-increasing by
nbSeeders (missing treated as 0), and the entries holding any given
seeder count appear in it as a prefix of, hence in the same relative
order as, the corresponding entries of the filtered input. -/
theorem C4_rank_stability (sid pat : String) (R : List Torrent) (S : Nat) :
    ((shape sid pat R S).results).Pairwise seedGE ∧
    ∀ k : Nat, ∃ rest,
      (R.filter (sizeOK S)).filter (fun t => seedKey t == k) =
        ((shape sid pat R S).results).filter (fun t => seedKey t == k) ++ rest := by
  refine ⟨shape_pairwise sid pat R S, ?_⟩
  intro k
  refine ⟨((sortByNbSeedersDesc (R.filter (sizeOK S))).drop 10).filter
      (fun t => seedKey t == k), ?_⟩
  rw [shape_results_eq]
  rw [← filter_sortByNbSeedersDesc (R.filter (sizeOK S)) k]
  rw [← List.filter_append]
  rw [List.take_append_drop]

/-- Witness for C4 at a concrete input: two tied entries (seeders 2)
around a higher-ranked one. -/
theorem C4_rank_stability_witness :
    ((shape "s" "p" [⟨some 1, some 2, 0⟩, ⟨some 1, some 7, 1⟩, ⟨some 1, some 2, 2⟩] 5).results).Pairwise seedGE ∧
    ∀ k : Nat, ∃ rest,
      (([⟨some 1, some 2, 0⟩, ⟨some 1, some 7, 1⟩, ⟨some 1, some 2, 2⟩] : List Torrent).filter (sizeOK 5)).filter
          (fun t => seedKey t == k) =
        ((shape "s" "p" [⟨some 1, some 2, 0⟩, ⟨some 1, some 7, 1⟩, ⟨some 1, some 2, 2⟩] 5).results).filter
          (fun t => seedKey t == k) ++ rest :=
  C4_rank_stability "s" "p" [⟨some 1, some 2, 0⟩, ⟨some 1, some 7, 1⟩, ⟨some 1, some 2, 2⟩] 5

/-- C5: every success envelope produced by search_torrents_api satisfies
filtered_results ≤ total_results, has at most min(filtered_results, 10)
results — in particular never more than 10 — and its results array is
sorted non-increasing by nbSeeders. -/
theorem C5_envelope_invariant (pat : String) (S : Nat) (env : Env)
    (e : Envelope)
    (h : (search_torrents_api pat S env).1 = .ok (.success e)) :
    e.filtered_results ≤ e.total_results ∧
    e.results.length ≤ min e.filtered_results 10 ∧
    e.results.Pairwise seedGE := by
  obtain ⟨login, start, poll⟩ := env
  cases login with
  | raise => simp [search_torrents_api] at h
  | noSession => simp [search_torrents_api] at h
  | session =>
    cases start with
    | raise => simp [search_torrents_api] at h
    | resp code text sid =>
      simp only [search_torrents_api] at h
      by_cases hc : code ≠ 200
      · rw [if_pos hc] at h
        simp at h
      · rw [if_neg hc] at h
        by_cases hm : searchIdMissing sid = true
        · rw [if_pos hm] at h
          simp at h
        · rw [if_neg hm] at h
          rcases hr : (pollLoop poll SEARCH_MAX_RETRIES 0 [] none).1 with
            _ | ⟨c, t⟩ | ⟨torrents, status⟩
          · rw [hr] at h
            simp at h
          · rw [hr] at h
            simp at h
          · rw [hr] at h
            have h' :
                (if torrents = [] ∧ status ≠ some "Stopped" then
                    (Except.ok (SearchOutput.timeout (sid.getD "") status) :
                      Except Unit SearchOutput)
                  else
                    (Except.ok (SearchOutput.success
                      (shape (sid.getD "") pat torrents S)))) =
                  Except.ok (SearchOutput.success e) := by
              rw [← h]
              by_cases hg : torrents = [] ∧ status ≠ some "Stopped" <;>
                simp [hg]
            by_cases hg : torrents = [] ∧ status ≠ some "Stopped"
            · rw [if_pos hg] at h'
              simp at h'
            · rw [if_neg hg] at h'
              have he : shape (sid.getD "") pat torrents S = e := by
                simpa using h'
              subst he
              exact ⟨shape_filtered_le _ _ _ _, shape_results_length _ _ _ _,
                shape_pairwise _ _ _ _⟩

/-- Witness for C5 at a concrete environment producing the empty success
envelope. -/
theorem C5_envelope_invariant_witness :
    (⟨"jid", "q", 0, 0, []⟩ : Envelope).filtered_results ≤
      (⟨"jid", "q", 0, 0, []⟩ : Envelope).total_results ∧
    (⟨"jid", "q", 0, 0, []⟩ : Envelope).results.length ≤
      min (⟨"jid", "q", 0, 0, []⟩ : Envelope).filtered_results 10 ∧
    (⟨"jid", "q", 0, 0, []⟩ : Envelope).results.Pairwise seedGE :=
  C5_envelope_invariant "q" 5
    { login := .session, start := .resp 200 "" (some "jid"),
      poll := fun _ => .resp 200 "" (some "Stopped") [] }
    ⟨"jid", "q", 0, 0, []⟩ rfl

/-- C1: if every poll attempt returns a non-empty results list with
status Running, the polling loop terminates at attempt index 2 — after
exactly 3 poll calls, not maxAttempts — and the operation shapes exactly
that attempt's results. -/
theorem C1_early_acceptance (pat : String) (S : Nat) (env : Env)
    (sid stxt : String) (txt : Nat → String) (res : Nat → List Torrent)
    (hlogin : env.login = .session)
    (hstart : env.start = .resp 200 stxt (some sid)) (hsid : sid ≠ "")
    (hpoll : ∀ n, env.poll n = .resp 200 (txt n) (some "Running") (res n))
    (hne : ∀ n, res n ≠ []) :
    (search_torrents_api pat S env).1 =
        .ok (.success (shape sid pat (res 2) S)) ∧
    (search_torrents_api pat S env).2.count Ev.pollReq = 3 := by
  have h10 : SEARCH_MAX_RETRIES = 10 := rfl
  rw [search_poll_phase pat S env sid stxt hlogin hstart hsid]
  have hne2 : ∀ i, i < 2 → nonExiting env.poll i := by
    intro i hi
    exact ⟨txt i, some "Running", res i, hpoll i, by simp, Or.inr hi⟩
  obtain ⟨t', s', hreach⟩ :=
    pollLoop_reach env.poll 2 (by omega) hne2 SEARCH_MAX_RETRIES 0 [] none
      (by omega) (by omega)
  have hstep : pollLoop env.poll (SEARCH_MAX_RETRIES - (2 - 0)) 2 t' s' =
      (.finished (res 2) (some "Running"), [Ev.pollReq]) :=
    pollLoop_step_accept 7 t' s' (hpoll 2) (by simp) ⟨hne 2, by omega⟩
  rw [hreach, hstep]
  constructor
  · simp [hne 2]
  · simp [hne 2]
    decide

/-- Witness for C1 at a concrete environment whose poller always returns
one Running result. -/
theorem C1_early_acceptance_witness :
    (search_torrents_api "q" 100
      { login := .session, start := .resp 200 "" (some "jid"),
        poll := fun _ => .resp 200 "" (some "Running") [⟨some 1, some 3, 0⟩] }).1 =
        .ok (.success (shape "jid" "q" [⟨some 1, some 3, 0⟩] 100)) ∧
    (search_torrents_api "q" 100
      { login := .session, start := .resp 200 "" (some "jid"),
        poll := fun _ => .resp 200 "" (some "Running") [⟨some 1, some 3, 0⟩] }).2.count
      Ev.pollReq = 3 :=
  C1_early_acceptance "q" 100
    { login := .session, start := .resp 200 "" (some "jid"),
      poll := fun _ => .resp 200 "" (some "Running") [⟨some 1, some 3, 0⟩] }
    "jid" "" (fun _ => "") (fun _ => [⟨some 1, some 3, 0⟩])
    rfl rfl (by decide) (fun _ => rfl) (fun _ => by simp)

/-- C2: if every poll attempt returns an empty results list with a
status other than Stopped, the operation performs exactly
maxAttempts = 10 poll calls and returns the timeout envelope carrying
the job id and last-seen status, whose message differs from every
poll-failure message. -/
theorem C2_poll_timeout (pat : String) (S : Nat) (env : Env)
    (sid stxt : String) (txt : Nat → String) (st : Nat → Option String)
    (hlogin : env.login = .session)
    (hstart : env.start = .resp 200 stxt (some sid)) (hsid : sid ≠ "")
    (hpoll : ∀ n, env.poll n = .resp 200 (txt n) (st n) [])
    (hstop : ∀ n, st n ≠ some "Stopped") :
    (search_torrents_api pat S env).1 = .ok (.timeout sid (st 9)) ∧
    (search_torrents_api pat S env).2.count Ev.pollReq = SEARCH_MAX_RETRIES ∧
    ∀ c t, errorMessage (.timeout sid (st 9)) ≠
      errorMessage (.pollFailed c t) := by
  have h10 : SEARCH_MAX_RETRIES = 10 := rfl
  rw [search_poll_phase pat S env sid stxt hlogin hstart hsid]
  have hne9 : ∀ i, i < 9 → nonExiting env.poll i := fun i _ =>
    ⟨txt i, st i, [], hpoll i, hstop i, Or.inl rfl⟩
  obtain ⟨t', s', hreach⟩ :=
    pollLoop_reach env.poll 9 (by omega) hne9 SEARCH_MAX_RETRIES 0 [] none
      (by omega) (by omega)
  have hstep : pollLoop env.poll (SEARCH_MAX_RETRIES - (9 - 0)) 9 t' s' =
      (.finished [] (st 9), [Ev.pollReq]) :=
    pollLoop_step_exhaust t' s' (hpoll 9) (hstop 9) (by simp)
  rw [hreach, hstep]
  refine ⟨?_, ?_, fun c t => timeout_msg_ne sid (st 9) c t⟩
  · simp [hstop 9]
  · simp [hstop 9]
    decide

/-- Witness for C2 at a concrete environment whose poller always returns
an empty Running page. -/
theorem C2_poll_timeout_witness :
    (search_torrents_api "q" 100
      { login := .session, start := .resp 200 "" (some "jid"),
        poll := fun _ => .resp 200 "" (some "Running") [] }).1 =
        .ok (.timeout "jid" (some "Running")) ∧
    (search_torrents_api "q" 100
      { login := .session, start := .resp 200 "" (some "jid"),
        poll := fun _ => .resp 200 "" (some "Running") [] }).2.count
      Ev.pollReq = SEARCH_MAX_RETRIES ∧
    ∀ c t, errorMessage (.timeout "jid" (some "Running")) ≠
      errorMessage (.pollFailed c t) :=
  C2_poll_timeout "q" 100
    { login := .session, start := .resp 200 "" (some "jid"),
      poll := fun _ => .resp 200 "" (some "Running") [] }
    "jid" "" (fun _ => "") (fun _ => some "Running")
    rfl rfl (by decide) (fun _ => rfl) (fun _ => by simp)

/-- C8: if the first poll attempt returns status Stopped with an empty
results list, polling stops after that single call and a success
envelope with zero counts and an empty results array is returned. -/
theorem C8_immediate_stop (pat : String) (S : Nat) (env : Env)
    (sid stxt ptxt : String)
    (hlogin : env.login = .session)
    (hstart : env.start = .resp 200 stxt (some sid)) (hsid : sid ≠ "")
    (hp0 : env.poll 0 = .resp 200 ptxt (some "Stopped") []) :
    (search_torrents_api pat S env).1 =
        .ok (.success ⟨sid, pat, 0, 0, []⟩) ∧
    (search_torrents_api pat S env).2.count Ev.pollReq = 1 := by
  rw [search_poll_phase pat S env sid stxt hlogin hstart hsid]
  have hloop : pollLoop env.poll SEARCH_MAX_RETRIES 0 [] none =
      (.finished [] (some "Stopped"), [Ev.pollReq]) :=
    pollLoop_step_stop 9 [] none hp0
  rw [hloop]
  exact ⟨rfl, rfl⟩

/-- Witness for C8 at a concrete environment that stops at attempt 0. -/
theorem C8_immediate_stop_witness :
    (search_torrents_api "q" 100
      { login := .session, start := .resp 200 "" (some "jid"),
        poll := fun _ => .resp 200 "" (some "Stopped") [] }).1 =
        .ok (.success ⟨"jid", "q", 0, 0, []⟩) ∧
    (search_torrents_api "q" 100
      { login := .session, start := .resp 200 "" (some "jid"),
        poll := fun _ => .resp 200 "" (some "Stopped") [] }).2.count
      Ev.pollReq = 1 :=
  C8_immediate_stop "q" 100
    { login := .session, start := .resp 200 "" (some "jid"),
      poll := fun _ => .resp 200 "" (some "Stopped") [] }
    "jid" "" "" rfl rfl (by decide) rfl

/-- C9: if all maxAttempts = 10 attempts complete without exiting early
(no Stopped status, no early acceptance, all HTTP 200), then the loop
ends in the exhausted state holding an empty last-seen results list:
exhaustion with non-empty results is unreachable. -/
theorem C9_exhaustion_empty (poll : Nat → PollResult)
    (txt : Nat → String) (st : Nat → Option String)
    (res : Nat → List Torrent)
    (hpoll : ∀ i, i < SEARCH_MAX_RETRIES →
      poll i = .resp 200 (txt i) (st i) (res i))
    (hstop : ∀ i, i < SEARCH_MAX_RETRIES → st i ≠ some "Stopped")
    (hacc : ∀ i, i < SEARCH_MAX_RETRIES → ¬(res i ≠ [] ∧ 2 ≤ i)) :
    (pollLoop poll SEARCH_MAX_RETRIES 0 [] none).1 =
      .finished [] (st 9) := by
  have h10 : SEARCH_MAX_RETRIES = 10 := rfl
  have hne9 : ∀ i, i < 9 → nonExiting poll i := by
    intro i hi
    refine ⟨txt i, st i, res i, hpoll i (by omega), hstop i (by omega), ?_⟩
    rcases Nat.lt_or_ge i 2 with h2 | h2
    · exact Or.inr h2
    · refine Or.inl ?_
      by_contra hri
      exact hacc i (by omega) ⟨hri, h2⟩
  obtain ⟨t', s', hreach⟩ :=
    pollLoop_reach poll 9 (by omega) hne9 SEARCH_MAX_RETRIES 0 [] none
      (by omega) (by omega)
  have hres9 : res 9 = [] := by
    by_contra hri
    exact hacc 9 (by omega) ⟨hri, by omega⟩
  have hstep : pollLoop poll (SEARCH_MAX_RETRIES - (9 - 0)) 9 t' s' =
      (.finished (res 9) (st 9), [Ev.pollReq]) :=
    pollLoop_step_exhaust t' s' (hpoll 9 (by omega)) (hstop 9 (by omega))
      (by simp [hres9])
  rw [hreach]
  simp [hstep, hres9]

/-- Witness for C9 at a concrete poller that always returns an empty
Running page. -/
theorem C9_exhaustion_empty_witness :
    (pollLoop (fun _ => .resp 200 "" (some "Running") [])
      SEARCH_MAX_RETRIES 0 [] none).1 = .finished [] (some "Running") :=
  C9_exhaustion_empty (fun _ => .resp 200 "" (some "Running") [])
    (fun _ => "") (fun _ => some "Running") (fun _ => [])
    (fun _ _ => rfl) (by decide) (by decide)

/-- C6 counterexample: a transport-level exception raised by the login
call (which sits before the try block at line 687) escapes
search_torrents_api uncaught, so not every failure is converted into an
error envelope. -/
theorem C6_counterexample :
    (search_torrents_api "p" 0
      { login := .raise, start := .raise, poll := fun _ => .raise }).1 =
      .error () := rfl

/-- C6 amended: provided the login call itself does not raise, every
failure at every later stage is caught and converted into a structured
envelope — no exception propagates past the function boundary. -/
theorem C6_no_escape_after_login (pat : String) (S : Nat) (env : Env)
    (h : env.login ≠ .raise) :
    ∃ out, (search_torrents_api pat S env).1 = .ok out := by
  obtain ⟨login, start, poll⟩ := env
  cases login with
  | raise => exact absurd rfl h
  | noSession => exact ⟨.loginFailed, rfl⟩
  | session =>
    cases start with
    | raise => exact ⟨.caughtError, rfl⟩
    | resp code text sid =>
      simp only [search_torrents_api]
      by_cases hc : code ≠ 200
      · rw [if_pos hc]
        exact ⟨.startFailed code text, rfl⟩
      · rw [if_neg hc]
        by_cases hm : searchIdMissing sid = true
        · rw [if_pos hm]
          exact ⟨.noSearchId, rfl⟩
        · rw [if_neg hm]
          rcases hr : (pollLoop poll SEARCH_MAX_RETRIES 0 [] none).1 with
            _ | ⟨c, t⟩ | ⟨torrents, status⟩
          · exact ⟨.caughtError, rfl⟩
          · exact ⟨.pollFailed c t, rfl⟩
          · by_cases hg : torrents = [] ∧ status ≠ some "Stopped"
            · exact ⟨.timeout (sid.getD "") status, by simp [hr, hg]⟩
            · exact ⟨.success (shape (sid.getD "") pat torrents S),
                by simp [hr, hg]⟩

/-- Witness for the amended C6 at a concrete environment where the start
call raises: the exception is caught into an envelope. -/
theorem C6_no_escape_after_login_witness :
    ∃ out, (search_torrents_api "p" 0
      { login := .session, start := .raise, poll := fun _ => .raise }).1 =
      .ok out :=
  C6_no_escape_after_login "p" 0
    { login := .session, start := .raise, poll := fun _ => .raise }
    (by decide)

/-- C7 counterexample: two environments that differ only in the job
identifier returned by the start call (jobA versus jobB) produce the
identical poll-failure envelope when a poll returns a non-2xx status, so
that envelope cannot include the job identifier (nor the last-seen
status). -/
theorem C7_counterexample :
    (search_torrents_api "p" 0
      { login := .session, start := .resp 200 "" (some "jobA"),
        poll := fun _ => .resp 500 "boom" none [] }).1 =
      .ok (.pollFailed 500 "boom") ∧
    (search_torrents_api "p" 0
      { login := .session, start := .resp 200 "" (some "jobB"),
        poll := fun _ => .resp 500 "boom" none [] }).1 =
      .ok (.pollFailed 500 "boom") := ⟨rfl, rfl⟩

/-- C7 amended: a non-2xx poll response at any reachable attempt aborts
the whole operation immediately — exactly the failing attempt's poll
call and no later one is issued — and the failure envelope carries the
HTTP status code and response body (but not the job identifier or
last-seen status). -/
theorem C7_poll_failure_aborts (pat : String) (S : Nat) (env : Env)
    (sid stxt text : String) (j code : Nat) (st : Option String)
    (res : List Torrent)
    (hlogin : env.login = .session)
    (hstart : env.start = .resp 200 stxt (some sid)) (hsid : sid ≠ "")
    (hj : j < SEARCH_MAX_RETRIES)
    (hne : ∀ i, i < j → nonExiting env.poll i)
    (hpj : env.poll j = .resp code text st res) (hcode : code ≠ 200) :
    (search_torrents_api pat S env).1 = .ok (.pollFailed code text) ∧
    (search_torrents_api pat S env).2.count Ev.pollReq = j + 1 := by
  have h10 : SEARCH_MAX_RETRIES = 10 := rfl
  rw [search_poll_phase pat S env sid stxt hlogin hstart hsid]
  obtain ⟨t', s', hreach⟩ :=
    pollLoop_reach env.poll j hj hne SEARCH_MAX_RETRIES 0 [] none
      (by omega) (by omega)
  have hfuel : SEARCH_MAX_RETRIES - (j - 0) =
      (SEARCH_MAX_RETRIES - (j - 0) - 1) + 1 := by omega
  have hstep : pollLoop env.poll (SEARCH_MAX_RETRIES - (j - 0)) j t' s' =
      (.errPoll code text, [Ev.pollReq]) := by
    rw [hfuel]
    exact pollLoop_step_fail _ t' s' hpj hcode
  rw [hreach, hstep]
  refine ⟨rfl, ?_⟩
  simp [List.count_cons, List.count_append, count_pollReq_preTrace]

/-- Witness for the amended C7: the very first poll returns HTTP 500. -/
theorem C7_poll_failure_aborts_witness :
    (search_torrents_api "p" 0
      { login := .session, start := .resp 200 "" (some "jid"),
        poll := fun _ => .resp 500 "boom" none [] }).1 =
      .ok (.pollFailed 500 "boom") ∧
    (search_torrents_api "p" 0
      { login := .session, start := .resp 200 "" (some "jid"),
        poll := fun _ => .resp 500 "boom" none [] }).2.count
      Ev.pollReq = 0 + 1 :=
  C7_poll_failure_aborts "p" 0
    { login := .session, start := .resp 200 "" (some "jid"),
      poll := fun _ => .resp 500 "boom" none [] }
    "jid" "" "boom" 0 500 none []
    rfl rfl (by decide) (by decide)
    (fun i hi => absurd hi (by omega)) rfl (by decide)

/-- The trace of any invocation is one of three shapes: login only,
login then start, or login, start and a poll phase of k+1 ≤ 10 requests
with sleeps strictly between consecutive polls. -/
lemma search_trace_cases (pat : String) (S : Nat) (env : Env) :
    (search_torrents_api pat S env).2 = [Ev.loginReq] ∨
    (search_torrents_api pat S env).2 = [Ev.loginReq, Ev.startReq] ∨
    ∃ k, k + 1 ≤ SEARCH_MAX_RETRIES ∧
      (search_torrents_api pat S env).2 =
        Ev.loginReq :: Ev.startReq :: (preTrace k ++ [Ev.pollReq]) := by
  obtain ⟨login, start, poll⟩ := env
  cases login with
  | raise => exact Or.inl rfl
  | noSession => exact Or.inl rfl
  | session =>
    cases start with
    | raise => exact Or.inr (Or.inl rfl)
    | resp code text sid =>
      simp only [search_torrents_api]
      by_cases hc : code ≠ 200
      · rw [if_pos hc]
        exact Or.inr (Or.inl rfl)
      · rw [if_neg hc]
        by_cases hm : searchIdMissing sid = true
        · rw [if_pos hm]
          exact Or.inr (Or.inl rfl)
        · rw [if_neg hm]
          obtain ⟨k, hk, htr⟩ :=
            pollLoop_trace_shape poll SEARCH_MAX_RETRIES 0 [] none
              (by simp) (by simp [SEARCH_MAX_RETRIES])
          refine Or.inr (Or.inr ⟨k, hk, ?_⟩)
          rcases hr : (pollLoop poll SEARCH_MAX_RETRIES 0 [] none).1 with
            _ | ⟨c, t⟩ | ⟨torrents, status⟩
          · simp [hr, htr]
          · simp [hr, htr]
          · by_cases hg : torrents = [] ∧ status ≠ some "Stopped"
            · simp [hr, hg, htr]
            · simp [hr, hg, htr]

/-- C10: every invocation terminates (the embedding is a total function)
and issues exactly one login request, at most one search-start request
and at most SEARCH_MAX_RETRIES = 10 poll requests — at most 12 HTTP
requests in total — and every inter-attempt sleep sits strictly between
two consecutive poll requests, never after the last one. -/
theorem C10_bounded_requests (pat : String) (S : Nat) (env : Env) :
    (search_torrents_api pat S env).2.count Ev.loginReq = 1 ∧
    (search_torrents_api pat S env).2.count Ev.startReq ≤ 1 ∧
    (search_torrents_api pat S env).2.count Ev.pollReq ≤ SEARCH_MAX_RETRIES ∧
    ((search_torrents_api pat S env).2.filter isReq).length ≤ 12 ∧
    sleepWellPlaced (search_torrents_api pat S env).2 = true := by
  have h10 : SEARCH_MAX_RETRIES = 10 := rfl
  rcases search_trace_cases pat S env with h | h | ⟨k, hk, h⟩ <;> rw [h]
  · exact ⟨by decide, by decide, by decide, by decide, by decide⟩
  · exact ⟨by decide, by decide, by decide, by decide, by decide⟩
  · refine ⟨?_, ?_, ?_, ?_, sleepWellPlaced_fullTrace k⟩
    · simp [List.count_cons, List.count_append, count_loginReq_preTrace]
    · simp [List.count_cons, List.count_append, count_startReq_preTrace]
    · rw [count_pollReq_fullTrace]
      omega
    · simp [List.filter_cons, List.filter_append, isReq,
        length_filter_isReq_preTrace]
      omega

end QbtSearch
